import Mathlib

/-!
Shallow embedding of the two tools of this repository,
`src/arxiv-scraping.py` and `src/github-scraping.py`.

The arXiv side embeds the XML entry parser `parse_response`, the filename
sanitization of `download_paper`, and `download_paper` itself.  The GitHub
side embeds `fetch_all_repos` (pagination), `request_with_rate_limit`
(rate-limit backoff), `filter_repos`, and the orchestration of `main`.

External effects are passed in as explicit oracles: the network is a function
from a request index (or URL) to the already-decoded response the Python code
inspects, the clock is a function from attempt index to epoch seconds, the
filesystem is a write-success oracle plus a directory-existence oracle, and
the regular-expression engine is an abstract search function.  ElementTree
texts and attribute lookups return `Option String`, exactly where the Python
values can be `None`.  Python `str.isalnum`, `str.lower` and whitespace
stripping are modelled on their ASCII fragment.
-/

/-- An author element of an Atom entry.  `name_elem = some t` models a nested
name element being present, with `t` its ElementTree text (`none` for an
empty element, as `.text` is `None` there). -/
structure AtomAuthor where
  name_elem : Option (Option String)
  deriving DecidableEq

/-- A link element of an Atom entry, carrying its `type` and `href`
attributes; `none` models an absent attribute (`link.get` returns `None`). -/
structure AtomLink where
  link_type : Option String
  href : Option String
  deriving DecidableEq

/-- One entry element of the Atom feed, as inspected by `parse_response`:
the optional title, summary and id elements (each with optional text), the
author elements and the link elements, in document order. -/
structure AtomEntry where
  title_elem : Option (Option String)
  author_elems : List AtomAuthor
  summary_elem : Option (Option String)
  id_elem : Option (Option String)
  link_elems : List AtomLink
  deriving DecidableEq

/-- The paper dict built by `parse_response`.  `arxiv_id = none` and
`pdf_url = none` model the corresponding dict key never being set; the inner
option of `pdf_url` is the value of the matching link's `href` attribute. -/
structure Paper where
  title : String
  authors : List (Option String)
  summary : String
  arxiv_id : Option String
  pdf_url : Option (Option String)
  deriving DecidableEq

/-- The last `/`-separated segment of a string, as `s.split('/')[-1]`
(Python `split` never yields an empty list, so index `-1` is total). -/
def last_slash_segment (s : String) : String :=
  (s.splitOn "/").getLastD ""

/-- Title extraction: `title_elem.text.strip() if title_elem is not None else
"Unknown Title"`.  A present element whose text is `None` raises
(`AttributeError` from `.strip()` on `None`). -/
def parse_title_elem : Option (Option String) → Except String String
  | none => Except.ok "Unknown Title"
  | some none => Except.error "AttributeError: strip on None title text"
  | some (some t) => Except.ok t.trim

/-- Summary extraction: as the title, with default `""`. -/
def parse_summary_elem : Option (Option String) → Except String String
  | none => Except.ok ""
  | some none => Except.error "AttributeError: strip on None summary text"
  | some (some s) => Except.ok s.trim

/-- Identifier extraction: when the id element is present, its text is split
on `/` and the last segment kept; an absent element leaves the dict key
unset (`none`); a present element with `None` text raises. -/
def parse_id_elem : Option (Option String) → Except String (Option String)
  | none => Except.ok none
  | some none => Except.error "AttributeError: split on None id text"
  | some (some i) => Except.ok (some (last_slash_segment i))

/-- The parsing of one entry element, in the statement order of the source:
title, authors (names of author elements that have a nested name element;
authors without one are skipped), summary, arXiv id, and the `href` of the
first link whose `type` attribute equals `application/pdf`. -/
def parse_entry (e : AtomEntry) : Except String Paper :=
  match parse_title_elem e.title_elem with
  | Except.error m => Except.error m
  | Except.ok title =>
    let authors := e.author_elems.filterMap AtomAuthor.name_elem
    match parse_summary_elem e.summary_elem with
    | Except.error m => Except.error m
    | Except.ok summary =>
      match parse_id_elem e.id_elem with
      | Except.error m => Except.error m
      | Except.ok arxiv_id =>
        Except.ok
          { title := title
            authors := authors
            summary := summary
            arxiv_id := arxiv_id
            pdf_url :=
              (e.link_elems.find? fun l =>
                l.link_type == some "application/pdf").map AtomLink.href }

/-- The happy path of `parse_entry` as a total function; it agrees with
`parse_entry` on every entry on which no extraction raises. -/
def parse_entry_ok (e : AtomEntry) : Paper :=
  { title :=
      match e.title_elem with
      | some (some t) => t.trim
      | _ => "Unknown Title"
    authors := e.author_elems.filterMap AtomAuthor.name_elem
    summary :=
      match e.summary_elem with
      | some (some s) => s.trim
      | _ => ""
    arxiv_id :=
      match e.id_elem with
      | some (some i) => some (last_slash_segment i)
      | _ => none
    pdf_url :=
      (e.link_elems.find? fun l =>
        l.link_type == some "application/pdf").map AtomLink.href }

/-- The body of `parse_response`: each entry is parsed in document order and
appended to the result; an exception in any entry propagates. -/
def parse_response : List AtomEntry → Except String (List Paper)
  | [] => Except.ok []
  | e :: rest =>
    match parse_entry e with
    | Except.error m => Except.error m
    | Except.ok p =>
      match parse_response rest with
      | Except.error m => Except.error m
      | Except.ok ps => Except.ok (p :: ps)

/-- Conformance of an entry to the Atom + arXiv schema, restricted to what
`parse_entry` inspects: a present title, summary or id element has text. -/
def entry_conforms (e : AtomEntry) : Prop :=
  e.title_elem ≠ some none ∧ e.summary_elem ≠ some none ∧ e.id_elem ≠ some none

instance (e : AtomEntry) : Decidable (entry_conforms e) := by
  unfold entry_conforms
  infer_instance

/-- The ASCII fragment of Python `str.isalnum` (the source applies it to one
character at a time). -/
def py_isalnum (c : Char) : Bool :=
  c.isAlphanum

/-- The character filter of the sanitizer:
`c.isalnum() or c in (' ', '-', '_')`. -/
def keep_char (c : Char) : Bool :=
  py_isalnum c || c = ' ' || c = '-' || c = '_'

/-- Python `str.rstrip()` on a character list: trailing whitespace removed. -/
def py_rstrip (l : List Char) : List Char :=
  (l.reverse.dropWhile Char.isWhitespace).reverse

/-- The filename sanitization of `download_paper`:
`"".join(c for c in title if c.isalnum() or c in (' ', '-', '_')).rstrip()`
followed by truncation `[:100]`. -/
def sanitize_title (t : List Char) : List Char :=
  (py_rstrip (t.filter keep_char)).take 100

/-- The outcome of one call of `requests.get` on a PDF URL: a response with
status code and body bytes, or a raised exception. -/
inductive NetResult where
  | resp (status_code : Nat) (content : List Nat)
  | raised (msg : String)
  deriving DecidableEq

/-- The external effects `download_paper` can perform, besides printing. -/
inductive DlEvent where
  | httpGet (url : String)
  | fileWrite (path : String) (content : List Nat)
  deriving DecidableEq

/-- What one call of `download_paper` produces: its boolean return value,
the lines it prints, and the network/file effects it performs. -/
structure DlOutcome where
  ok : Bool
  messages : List String
  events : List DlEvent
  deriving DecidableEq

/-- The body of `download_paper`, with the network as an oracle `http` and
the success of the file write as an oracle `write_ok`.  A missing `pdf_url`
key returns early with no I/O; a missing `arxiv_id` key raises `KeyError`
while the filename f-string is built (before the Downloading print and before
any I/O); a `pdf_url` key holding `None` makes `requests.get(None)` raise
before any network I/O; otherwise the GET is issued, a 200 status leads to
the file write, and any other status or a raised exception returns `false`. -/
def download_paper (http : String → NetResult) (write_ok : String → List Nat → Bool)
    (download_dir : String) (paper : Paper) : DlOutcome :=
  match paper.pdf_url with
  | none =>
    { ok := false
      messages := ["PDF link not found: " ++ paper.title]
      events := [] }
  | some url_val =>
    match paper.arxiv_id with
    | none =>
      { ok := false
        messages := ["Download error: KeyError arxiv_id"]
        events := [] }
    | some aid =>
      let safe_title := String.mk (sanitize_title paper.title.data)
      let filename := aid ++ "_" ++ safe_title ++ ".pdf"
      let filepath := download_dir ++ "/" ++ filename
      match url_val with
      | none =>
        { ok := false
          messages := ["Downloading: " ++ paper.title,
                       "Download error: invalid URL None"]
          events := [] }
      | some url =>
        match http url with
        | NetResult.raised m =>
          { ok := false
            messages := ["Downloading: " ++ paper.title,
                         "Download error: " ++ m]
            events := [DlEvent.httpGet url] }
        | NetResult.resp status content =>
          if status = 200 then
            if write_ok filepath content then
              { ok := true
                messages := ["Downloading: " ++ paper.title,
                             "Download completed: " ++ filename]
                events := [DlEvent.httpGet url,
                           DlEvent.fileWrite filepath content] }
            else
              { ok := false
                messages := ["Downloading: " ++ paper.title,
                             "Download error: write raised"]
                events := [DlEvent.httpGet url] }
          else
            { ok := false
              messages := ["Downloading: " ++ paper.title,
                           "Download error: " ++ toString status]
              events := [DlEvent.httpGet url] }

/-- The `Repo` dataclass of `github-scraping.py`. -/
structure Repo where
  owner : String
  name : String
  full_name : String
  ssh_url : String
  archived : Bool
  description : Option String
  deriving DecidableEq

/-- One JSON item of a listing page, restricted to the keys the source
reads; `none` models an absent key (`item.get` falls back to a default). -/
structure RawItem where
  owner_login : Option String
  name : Option String
  full_name : Option String
  ssh_url : Option String
  archived : Option Bool
  description : Option String
  deriving DecidableEq

/-- The per-item decoding of `fetch_all_repos`, with its placeholder
defaults for missing keys. -/
def decode_item (owner : String) (it : RawItem) : Repo :=
  { owner := it.owner_login.getD owner
    name := it.name.getD ""
    full_name := it.full_name.getD (owner ++ "/unknown")
    ssh_url := it.ssh_url.getD ("git@github.com:" ++ owner ++ "/unknown.git")
    archived := it.archived.getD false
    description := it.description }

/-- The pagination loop of `fetch_all_repos`, over a page oracle mapping a
page index to the decoded JSON payload of that response: `some items` for a
JSON list, `none` for any other payload (which raises).  The loop is driven
by explicit fuel; `none` overall means the fuel ran out before an empty page
was seen, `some (Except.error m)` a raised error, and `some (Except.ok l)` a
normal return with the accumulated repositories. -/
def fetch_loop (owner : String) (pages : Nat → Option (List RawItem)) :
    Nat → Nat → List Repo → Option (Except String (List Repo))
  | 0, _, _ => none
  | fuel + 1, page, acc =>
    match pages page with
    | none => some (Except.error "unexpected response: not a list")
    | some data =>
      if data.isEmpty then
        some (Except.ok acc)
      else
        fetch_loop owner pages fuel (page + 1) (acc ++ data.map (decode_item owner))

/-- The entry point of `fetch_all_repos`: page index starts at 1 with an
empty accumulator. -/
def fetch_all_repos (owner : String) (pages : Nat → Option (List RawItem))
    (fuel : Nat) : Option (Except String (List Repo)) :=
  fetch_loop owner pages fuel 1 []

/-- A response as inspected by `request_with_rate_limit`: its status code,
the `X-RateLimit-Remaining` header (a string, compared against `"0"`), and
the `X-RateLimit-Reset` header already parsed by `int(...)`. -/
structure RateResponse where
  status_code : Nat
  rl_remaining : Option String
  rl_reset : Option Int
  deriving DecidableEq

/-- What one iteration of the `while True` loop of
`request_with_rate_limit` decides to do. -/
inductive StepResult where
  | retryAfter (sleep_seconds : Int)
  | fatalError (status : Nat)
  | finished (r : RateResponse)
  deriving DecidableEq

/-- One iteration of `request_with_rate_limit` at clock value `now`: a 403
with remaining `"0"` and a reset header sleeps
`max(1, reset_epoch - int(time.time()) + 2)` and retries; otherwise any
status of at least 400 raises, and anything else is returned. -/
def request_step (now : Int) (r : RateResponse) : StepResult :=
  if r.status_code = 403 ∧ r.rl_remaining = some "0" then
    match r.rl_reset with
    | some reset_epoch => StepResult.retryAfter (max 1 (reset_epoch - now + 2))
    | none =>
      if r.status_code ≥ 400 then StepResult.fatalError r.status_code
      else StepResult.finished r
  else
    if r.status_code ≥ 400 then StepResult.fatalError r.status_code
    else StepResult.finished r

/-- The retry loop of `request_with_rate_limit` over a sequence of responses
to the one fixed request (attempt `n` receives `responses n` at clock
`times n`), accumulating the performed sleeps; `none` means the fuel ran out
while the loop was still retrying. -/
def request_with_rate_limit (responses : Nat → RateResponse) (times : Nat → Int) :
    Nat → Nat → List Int → Option (List Int × Except Nat RateResponse)
  | 0, _, _ => none
  | fuel + 1, attempt, sleeps =>
    match request_step (times attempt) (responses attempt) with
    | StepResult.retryAfter s =>
      request_with_rate_limit responses times fuel (attempt + 1) (sleeps ++ [s])
    | StepResult.fatalError st => some (sleeps, Except.error st)
    | StepResult.finished r => some (sleeps, Except.ok r)

/-- The text blob `filter_repos` matches against:
`f"{r.name}\n{r.full_name}\n{r.description or ''}"`. -/
def text_blob (r : Repo) : String :=
  r.name ++ "\n" ++ r.full_name ++ "\n" ++ r.description.getD ""

/-- Whether the haystack begins with the needle, character by character. -/
def chars_begins_with : List Char → List Char → Bool
  | _, [] => true
  | [], _ :: _ => false
  | h :: hs, n :: ns => h == n && chars_begins_with hs ns

/-- Whether the needle occurs contiguously somewhere in the haystack. -/
def chars_contains : List Char → List Char → Bool
  | [], needle => needle.isEmpty
  | h :: t, needle => chars_begins_with (h :: t) needle || chars_contains t needle

/-- Python substring containment `needle in hay`. -/
def str_contains_sub (hay needle : String) : Bool :=
  chars_contains hay.data needle.data

/-- The ASCII fragment of Python `str.lower`, applied character-wise. -/
def py_lower (s : String) : String :=
  String.mk (s.data.map Char.toLower)

/-- The matching predicate of `filter_repos`, with the regular-expression
engine abstracted as `rgx_search pattern text`.  A non-empty regex string is
compiled (`if match_regex:` is false on the empty string, leaving
`compiled_regex = None`); the substring branch requires a truthy, hence
non-empty, substring; the final branch fires when the substring is `None`
and the compiled regex is `None`. -/
def repo_matches (rgx_search : String → String → Bool)
    (match_sub : Option String) (match_regex : Option String) (r : Repo) : Bool :=
  let compiled : Option String :=
    match match_regex with
    | some p => if p = "" then none else some p
    | none => none
  let blob := text_blob r
  let m1 : Bool :=
    match match_sub with
    | some s => !(s == "") && str_contains_sub (py_lower blob) (py_lower s)
    | none => false
  let m2 : Bool :=
    match compiled with
    | some p => rgx_search p blob
    | none => false
  let m3 : Bool := match_sub.isNone && compiled.isNone
  m1 || m2 || m3

/-- The body of `filter_repos`: archived repositories are skipped unless
`include_archived`, then the matching predicate is applied; `include_forks`
is accepted and never read. -/
def filter_repos (rgx_search : String → String → Bool) (repos : List Repo)
    (match_sub : Option String) (match_regex : Option String)
    (include_archived : Bool) (include_forks : Bool) : List Repo :=
  repos.filter fun r =>
    (include_archived || !r.archived) && repo_matches rgx_search match_sub match_regex r

/-- The inclusion predicate exactly as the claim about `filter_repos`
words it: included when no substring and no regex filter are supplied, or
the substring filter matches case-insensitively against the blob, or the
regex filter matches the blob; archived repositories are dropped unless the
inclusion flag is set. -/
def claim_included (rgx_search : String → String → Bool)
    (match_sub : Option String) (match_regex : Option String)
    (include_archived : Bool) (r : Repo) : Prop :=
  (r.archived = true → include_archived = true) ∧
  ((match_sub = none ∧ match_regex = none) ∨
   (∃ s, match_sub = some s ∧
     str_contains_sub (py_lower (text_blob r)) (py_lower s) = true) ∨
   (∃ p, match_regex = some p ∧ rgx_search p (text_blob r) = true))

/-- The inclusion predicate as the code actually decides it: an empty
substring filter never matches and still counts as supplied, and an empty
regex filter is treated as absent. -/
def amended_included (rgx_search : String → String → Bool)
    (match_sub : Option String) (match_regex : Option String)
    (include_archived : Bool) (r : Repo) : Prop :=
  (r.archived = true → include_archived = true) ∧
  ((match_sub = none ∧ (match_regex = none ∨ match_regex = some "")) ∨
   (∃ s, match_sub = some s ∧ s ≠ "" ∧
     str_contains_sub (py_lower (text_blob r)) (py_lower s) = true) ∨
   (∃ p, match_regex = some p ∧ p ≠ "" ∧ rgx_search p (text_blob r) = true))

/-- The configuration of the GitHub tool after argument parsing. -/
structure GhConfig where
  user : Option String
  org : Option String
  match_sub : Option String
  regex_str : Option String
  dest : String
  interval : Int
  include_archived : Bool
  pull_if_exists : Bool
  sleep_on_skip : Bool
  deriving DecidableEq

/-- The network, subprocess and sleep effects of the GitHub tool's `main`. -/
inductive GhEvent where
  | netListing
  | gitClone (url : String) (dest : String)
  | gitPull (dest : String)
  | sleepFor (seconds : Int)
  deriving DecidableEq

/-- `throttle_sleep`: the requested interval clamped from below by the
10-second floor. -/
def throttle_sleep_seconds (seconds : Int) : Int :=
  max 10 seconds

/-- One iteration of the clone loop of `main` for one repository:
the `.git` probe, then pull / skip / clone with the source's sleeping rules;
returns the increment of `clones_done` and the effects performed. -/
def clone_step (cfg : GhConfig) (dir_has_git : String → Bool)
    (clone_code : String → Int) (pull_code : String → Int) (r : Repo) :
    Nat × List GhEvent :=
  let repo_dest := cfg.dest ++ "/" ++ r.name
  if dir_has_git (repo_dest ++ "/.git") then
    if cfg.pull_if_exists then
      let code := pull_code repo_dest
      ((if code = 0 then 1 else 0),
        [GhEvent.gitPull repo_dest] ++
          (if cfg.sleep_on_skip then
            [GhEvent.sleepFor (throttle_sleep_seconds cfg.interval)]
          else []))
    else
      (0,
        if cfg.sleep_on_skip then
          [GhEvent.sleepFor (throttle_sleep_seconds cfg.interval)]
        else [])
  else
    let code := clone_code repo_dest
    ((if code = 0 then 1 else 0),
      [GhEvent.gitClone r.ssh_url repo_dest,
       GhEvent.sleepFor (throttle_sleep_seconds cfg.interval)])

/-- The clone loop over the filtered repositories, in order. -/
def clone_loop (cfg : GhConfig) (dir_has_git : String → Bool)
    (clone_code : String → Int) (pull_code : String → Int) :
    List Repo → Nat × List GhEvent
  | [] => (0, [])
  | r :: rest =>
    let s := clone_step cfg dir_has_git clone_code pull_code r
    let t := clone_loop cfg dir_has_git clone_code pull_code rest
    (s.1 + t.1, s.2 ++ t.2)

/-- The `main` of `github-scraping.py` as exit code plus effect trace:
`ensure_git_available` exits 1 when git is absent; then an interval below
the 10-second floor exits 2; then the listing runs (one `netListing` marker
for the network activity of `fetch_all_repos`), a listing exception exits 1,
and otherwise the filter and clone loop run and the process exits 0. -/
def main_run (git_available : Bool) (cfg : GhConfig)
    (rgx_search : String → String → Bool) (listing : Except String (List Repo))
    (dir_has_git : String → Bool) (clone_code : String → Int)
    (pull_code : String → Int) : Nat × List GhEvent :=
  if !git_available then (1, [])
  else if cfg.interval < 10 then (2, [])
  else
    match listing with
    | Except.error _ => (1, [GhEvent.netListing])
    | Except.ok repos =>
      let matched := filter_repos rgx_search repos cfg.match_sub cfg.regex_str
        cfg.include_archived true
      let run := clone_loop cfg dir_has_git clone_code pull_code matched
      (0, GhEvent.netListing :: run.2)

/-- A concrete feed entry used to evaluate the parser: no title and no
summary element, one author with a name and one without, an id element, and
two PDF links after an HTML one. -/
def sample_entry : AtomEntry :=
  { title_elem := none
    author_elems := [{ name_elem := some (some "Alice") }, { name_elem := none }]
    summary_elem := none
    id_elem := some (some "http://arxiv.org/abs/1234.5678v1")
    link_elems := [{ link_type := some "text/html", href := some "http://h" },
                   { link_type := some "application/pdf", href := some "http://p1" },
                   { link_type := some "application/pdf", href := some "http://p2" }] }

/-- A 101-character title whose sanitized form is cut inside a run that ends
in a space: 99 letters, a space, and one more letter. -/
def bad_title : List Char :=
  List.replicate 99 'a' ++ [' ', 'b']

/-- A concrete raw listing item with every key present. -/
def sample_item : RawItem :=
  { owner_login := some "octo"
    name := some "demo"
    full_name := some "octo/demo"
    ssh_url := some "git@github.com:octo/demo.git"
    archived := some false
    description := some "a demo repository" }

/-- A concrete page oracle: page 1 holds one item, every later page is an
empty list. -/
def sample_pages : Nat → Option (List RawItem) :=
  fun n => if n = 1 then some [sample_item] else some []

/-- A concrete, non-archived repository record. -/
def sample_repo : Repo :=
  { owner := "octo"
    name := "demo"
    full_name := "octo/demo"
    ssh_url := "git@github.com:octo/demo.git"
    archived := false
    description := some "a demo repository" }

/-- A regular-expression oracle that never matches, usable wherever the
regex filter is absent or irrelevant. -/
def no_rgx : String → String → Bool :=
  fun _ _ => false

/-- A concrete paper with no `pdf_url` key. -/
def paper_no_pdf : Paper :=
  { title := "T"
    authors := [some "Alice"]
    summary := ""
    arxiv_id := some "1234.5678v1"
    pdf_url := none }

/-- A concrete paper with a PDF link. -/
def paper_with_pdf : Paper :=
  { title := "T"
    authors := [some "Alice"]
    summary := ""
    arxiv_id := some "1234.5678v1"
    pdf_url := some (some "http://p1") }

/-- A GitHub configuration with the default interval of 10 seconds. -/
def cfg_ok : GhConfig :=
  { user := some "octo"
    org := none
    match_sub := none
    regex_str := none
    dest := "./repos"
    interval := 10
    include_archived := false
    pull_if_exists := false
    sleep_on_skip := false }

/-- The same configuration with an interval of 5 seconds, below the floor. -/
def cfg_lo : GhConfig :=
  { cfg_ok with interval := 5 }

theorem parse_entry_eq_ok (e : AtomEntry) (h : entry_conforms e) :
    parse_entry e = Except.ok (parse_entry_ok e) := by
  obtain ⟨h1, h2, h3⟩ := h
  rcases ht : e.title_elem with _ | (_ | t) <;>
    rcases hs : e.summary_elem with _ | (_ | s) <;>
      rcases hi : e.id_elem with _ | (_ | i) <;>
        simp_all [parse_entry, parse_entry_ok, parse_title_elem,
          parse_summary_elem, parse_id_elem]

theorem parse_response_eq_map (entries : List AtomEntry)
    (h : ∀ e ∈ entries, entry_conforms e) :
    parse_response entries = Except.ok (entries.map parse_entry_ok) := by
  induction entries with
  | nil => rfl
  | cons e rest ih =>
    have he : entry_conforms e := h e (List.mem_cons_self e rest)
    have hrest := ih fun x hx => h x (List.mem_cons_of_mem e hx)
    simp [parse_response, parse_entry_eq_ok e he, hrest]

/-- C1: for every document whose entries conform to the Atom + arXiv schema,
`parse_response` raises no exception and yields exactly one record per entry
in document order; an absent title element defaults the title to
"Unknown Title", an absent summary element defaults the summary to the empty
string, the `pdf_url` field is the `href` of the first link typed
`application/pdf` and is absent when there is none, and authors without a
nested name element are skipped. -/
theorem parse_response_total_spec (entries : List AtomEntry)
    (h : ∀ e ∈ entries, entry_conforms e) :
    ∃ papers, parse_response entries = Except.ok papers ∧
      papers.length = entries.length ∧
      (∀ i (hi : i < entries.length) (hp : i < papers.length),
        papers.get ⟨i, hp⟩ = parse_entry_ok (entries.get ⟨i, hi⟩)) ∧
      (∀ e : AtomEntry, e.title_elem = none →
        (parse_entry_ok e).title = "Unknown Title") ∧
      (∀ e : AtomEntry, e.summary_elem = none → (parse_entry_ok e).summary = "") ∧
      (∀ e : AtomEntry, (parse_entry_ok e).pdf_url =
        (e.link_elems.find? fun l =>
          l.link_type == some "application/pdf").map AtomLink.href) ∧
      (∀ e : AtomEntry, (parse_entry_ok e).authors =
        e.author_elems.filterMap AtomAuthor.name_elem) := by
  refine ⟨entries.map parse_entry_ok, parse_response_eq_map entries h, by simp,
    ?_, ?_, ?_, fun e => rfl, fun e => rfl⟩
  · intro i hi hp
    simp [List.getElem_map]
  · intro e he
    simp [parse_entry_ok, he]
  · intro e he
    simp [parse_entry_ok, he]

/-- Witness for C1 at a one-entry document. -/
theorem parse_response_total_spec_witness :
    ∃ papers, parse_response [sample_entry] = Except.ok papers ∧
      papers.length = [sample_entry].length ∧
      (∀ i (hi : i < [sample_entry].length) (hp : i < papers.length),
        papers.get ⟨i, hp⟩ = parse_entry_ok ([sample_entry].get ⟨i, hi⟩)) ∧
      (∀ e : AtomEntry, e.title_elem = none →
        (parse_entry_ok e).title = "Unknown Title") ∧
      (∀ e : AtomEntry, e.summary_elem = none → (parse_entry_ok e).summary = "") ∧
      (∀ e : AtomEntry, (parse_entry_ok e).pdf_url =
        (e.link_elems.find? fun l =>
          l.link_type == some "application/pdf").map AtomLink.href) ∧
      (∀ e : AtomEntry, (parse_entry_ok e).authors =
        e.author_elems.filterMap AtomAuthor.name_elem) :=
  parse_response_total_spec [sample_entry] (by decide)

theorem dropWhile_self_idem (p : Char → Bool) (l : List Char) :
    (l.dropWhile p).dropWhile p = l.dropWhile p := by
  induction l with
  | nil => rfl
  | cons a l ih =>
    by_cases h : p a <;> simp [List.dropWhile_cons, h, ih]

theorem py_rstrip_idem (l : List Char) : py_rstrip (py_rstrip l) = py_rstrip l := by
  unfold py_rstrip
  rw [List.reverse_reverse, dropWhile_self_idem]

theorem py_rstrip_subset (l : List Char) : py_rstrip l ⊆ l := by
  unfold py_rstrip
  intro c hc
  rw [List.mem_reverse] at hc
  have := (List.dropWhile_sublist (l := l.reverse) (p := Char.isWhitespace)).subset hc
  rwa [List.mem_reverse] at this

/-- C2, counterexample: sanitization right-trims before truncating, so the
101-character `bad_title` sanitizes to 99 letters followed by a space —
a result with trailing whitespace that a second sanitization shortens. -/
theorem sanitize_title_not_idempotent :
    sanitize_title (sanitize_title bad_title) ≠ sanitize_title bad_title ∧
    py_rstrip (sanitize_title bad_title) ≠ sanitize_title bad_title := by
  decide

/-- C2, amended: for every title the sanitized result uses only the allowed
characters and is at most 100 characters long; whenever the filtered,
right-trimmed title already fits in 100 characters (so truncation is the
identity), sanitization is additionally idempotent and leaves no trailing
whitespace. -/
theorem sanitize_title_amended_spec (t : List Char) :
    (∀ c ∈ sanitize_title t, keep_char c = true) ∧
    (sanitize_title t).length ≤ 100 ∧
    ((py_rstrip (t.filter keep_char)).length ≤ 100 →
      sanitize_title (sanitize_title t) = sanitize_title t ∧
      py_rstrip (sanitize_title t) = sanitize_title t) := by
  refine ⟨?_, ?_, ?_⟩
  · intro c hc
    have h1 : c ∈ py_rstrip (t.filter keep_char) :=
      (List.take_sublist 100 _).subset hc
    have h2 : c ∈ t.filter keep_char := py_rstrip_subset _ h1
    exact (List.mem_filter.mp h2).2
  · simp [sanitize_title]
  · intro hlen
    have htake : (py_rstrip (t.filter keep_char)).take 100 =
        py_rstrip (t.filter keep_char) := List.take_of_length_le hlen
    have hsan : sanitize_title t = py_rstrip (t.filter keep_char) := by
      simp [sanitize_title, htake]
    have hfil : (py_rstrip (t.filter keep_char)).filter keep_char =
        py_rstrip (t.filter keep_char) := by
      refine List.filter_eq_self.mpr fun a ha => ?_
      exact (List.mem_filter.mp (py_rstrip_subset _ ha)).2
    have hrs : py_rstrip (py_rstrip (t.filter keep_char)) =
        py_rstrip (t.filter keep_char) := py_rstrip_idem _
    constructor
    · rw [hsan]
      simp [sanitize_title, hfil, hrs, htake]
    · rw [hsan, hrs]

/-- Witness for C2 at a short concrete title. -/
theorem sanitize_title_amended_spec_witness :
    (py_rstrip (['h', 'i', ' '].filter keep_char)).length ≤ 100 ∧
    (sanitize_title (sanitize_title ['h', 'i', ' ']) = sanitize_title ['h', 'i', ' '] ∧
     py_rstrip (sanitize_title ['h', 'i', ' ']) = sanitize_title ['h', 'i', ' ']) :=
  ⟨by decide, (sanitize_title_amended_spec ['h', 'i', ' ']).2.2 (by decide)⟩

theorem fetch_loop_spec (owner : String) (pages : Nat → Option (List RawItem)) :
    ∀ (k p : Nat) (acc : List Repo),
      pages (p + k) = some [] →
      (∀ j, j < k → ∃ l, pages (p + j) = some l ∧ l ≠ []) →
      fetch_loop owner pages (k + 1) p acc =
        some (Except.ok (acc ++ ((List.range' p k).map fun j =>
          ((pages j).getD []).map (decode_item owner)).flatten)) := by
  intro k
  induction k with
  | zero =>
    intro p acc hend _
    rw [Nat.add_zero] at hend
    simp [fetch_loop, hend]
  | succ k ih =>
    intro p acc hend hne
    obtain ⟨l, hl, hlne⟩ := hne 0 (Nat.succ_pos k)
    rw [Nat.add_zero] at hl
    rcases l with _ | ⟨x, xs⟩
    · exact absurd rfl hlne
    have step : fetch_loop owner pages (k + 1 + 1) p acc =
        fetch_loop owner pages (k + 1) (p + 1)
          (acc ++ (x :: xs).map (decode_item owner)) := by
      simp [fetch_loop, hl]
    rw [step]
    have hend' : pages (p + 1 + k) = some [] := by
      rw [show p + 1 + k = p + (k + 1) from by omega]
      exact hend
    have hne' : ∀ j, j < k → ∃ l, pages (p + 1 + j) = some l ∧ l ≠ [] := by
      intro j hj
      have := hne (j + 1) (by omega)
      rwa [show p + (j + 1) = p + 1 + j from by omega] at this
    rw [ih (p + 1) (acc ++ (x :: xs).map (decode_item owner)) hend' hne']
    simp [List.range'_succ, hl, List.append_assoc]

/-- C3: `fetch_all_repos` terminates at the first empty page — fuel equal to
the index of that page (pages advance from 1) already suffices — and returns
the concatenation, in request order, of the decoded items of every earlier
page. -/
theorem fetch_all_repos_spec (owner : String) (pages : Nat → Option (List RawItem))
    (n : Nat) (h1 : 1 ≤ n) (hend : pages n = some [])
    (hne : ∀ j, 1 ≤ j → j < n → ∃ l, pages j = some l ∧ l ≠ []) :
    fetch_all_repos owner pages n =
      some (Except.ok (((List.range' 1 (n - 1)).map fun j =>
        ((pages j).getD []).map (decode_item owner)).flatten)) := by
  have h2 : ∀ j, j < n - 1 → ∃ l, pages (1 + j) = some l ∧ l ≠ [] := by
    intro j hj
    exact hne (1 + j) (by omega) (by omega)
  have res := fetch_loop_spec owner pages (n - 1) 1 []
    (by rw [show 1 + (n - 1) = n from by omega]; exact hend) h2
  unfold fetch_all_repos
  rw [show n = n - 1 + 1 from by omega, Nat.add_sub_cancel]
  simpa using res

/-- Witness for C3 at a two-page oracle whose second page is empty. -/
theorem fetch_all_repos_spec_witness :
    fetch_all_repos "octo" sample_pages 2 =
      some (Except.ok (((List.range' 1 (2 - 1)).map fun j =>
        ((sample_pages j).getD []).map (decode_item "octo")).flatten)) :=
  fetch_all_repos_spec "octo" sample_pages 2 (by decide) (by decide)
    (by
      intro j hj1 hj2
      have hj : j = 1 := by omega
      subst hj
      exact ⟨[sample_item], rfl, by decide⟩)

/-- C4, counterexample: a 403 response that carries the remaining-quota-zero
signal but no reset header makes the listing fail fatally with no sleep and
no retry, where the claim demands a computed sleep followed by a retry. -/
theorem request_no_reset_fatal_cex :
    request_with_rate_limit
        (fun _ => { status_code := 403, rl_remaining := some "0", rl_reset := none })
        (fun _ => 0) 3 0 [] =
      some ([], Except.error 403) :=
  rfl

/-- C4, amended: a 403 response carrying the remaining-quota-zero signal and
a declared reset timestamp makes the loop sleep `max 1 (reset - now + 2)`
seconds — at least 1 second, with a 2-second safety margin — and retry the
identical request at the next attempt; every other response with status of
400 or above (including a remaining-quota-zero 403 without a reset header)
is fatal for the listing operation. -/
theorem request_step_amended_spec :
    (∀ (now : Int) (r : RateResponse) (t : Int),
      r.status_code = 403 → r.rl_remaining = some "0" → r.rl_reset = some t →
      request_step now r = StepResult.retryAfter (max 1 (t - now + 2)) ∧
      1 ≤ max 1 (t - now + 2)) ∧
    (∀ (now : Int) (r : RateResponse),
      400 ≤ r.status_code →
      ¬(r.status_code = 403 ∧ r.rl_remaining = some "0" ∧ r.rl_reset ≠ none) →
      request_step now r = StepResult.fatalError r.status_code) ∧
    (∀ (responses : Nat → RateResponse) (times : Nat → Int)
        (fuel attempt : Nat) (sleeps : List Int) (s : Int),
      request_step (times attempt) (responses attempt) = StepResult.retryAfter s →
      request_with_rate_limit responses times (fuel + 1) attempt sleeps =
        request_with_rate_limit responses times fuel (attempt + 1) (sleeps ++ [s])) := by
  refine ⟨?_, ?_, ?_⟩
  · intro now r t hs hr ht
    exact ⟨by simp [request_step, hs, hr, ht], le_max_left 1 _⟩
  · intro now r h4 hnot
    by_cases hc : r.status_code = 403 ∧ r.rl_remaining = some "0"
    · rcases ht : r.rl_reset with _ | t
      · simp [request_step, hc.1, hc.2, ht, h4]
      · exact absurd ⟨hc.1, hc.2, by simp [ht]⟩ hnot
    · simp only [request_step, if_neg hc]
      rw [if_pos h4]
  · intro responses times fuel attempt sleeps s h
    simp [request_with_rate_limit, h]

/-- Witness for C4 at a concrete rate-limited response and a concrete
server-error response. -/
theorem request_step_amended_spec_witness :
    request_step 0 { status_code := 403, rl_remaining := some "0", rl_reset := some 10 } =
      StepResult.retryAfter (max 1 (10 - 0 + 2)) ∧
    1 ≤ max 1 ((10 : Int) - 0 + 2) ∧
    request_step 0 { status_code := 500, rl_remaining := none, rl_reset := none } =
      StepResult.fatalError 500 :=
  ⟨(request_step_amended_spec.1 0 ⟨403, some "0", some 10⟩ 10 rfl rfl rfl).1,
   (request_step_amended_spec.1 0 ⟨403, some "0", some 10⟩ 10 rfl rfl rfl).2,
   request_step_amended_spec.2.1 0 ⟨500, none, none⟩ (by decide) (by decide)⟩

theorem archived_gate_iff (ia : Bool) (r : Repo) :
    (ia || !r.archived) = true ↔ (r.archived = true → ia = true) := by
  cases ia <;> cases hr : r.archived <;> simp [hr]

theorem repo_matches_iff (g : String → String → Bool) (ms mr : Option String)
    (r : Repo) :
    repo_matches g ms mr r = true ↔
      ((ms = none ∧ (mr = none ∨ mr = some "")) ∨
       (∃ s, ms = some s ∧ s ≠ "" ∧
         str_contains_sub (py_lower (text_blob r)) (py_lower s) = true) ∨
       (∃ p, mr = some p ∧ p ≠ "" ∧ g p (text_blob r) = true)) := by
  rcases ms with _ | s <;> rcases mr with _ | p
  · simp [repo_matches]
  · by_cases hp : p = "" <;> simp [repo_matches, hp]
  · by_cases hs : s = "" <;> simp [repo_matches, hs]
  · by_cases hp : p = "" <;> by_cases hs : s = "" <;>
      simp [repo_matches, hp, hs]

/-- C5: filtering is idempotent, and with neither a substring nor a regex
filter supplied the result is the input list unchanged except for the
archived exclusion. -/
theorem filter_repos_idem_spec (g : String → String → Bool) (L : List Repo)
    (ms mr : Option String) (ia fk : Bool) :
    filter_repos g (filter_repos g L ms mr ia fk) ms mr ia fk =
      filter_repos g L ms mr ia fk ∧
    (ms = none → mr = none →
      filter_repos g L ms mr ia fk = L.filter fun r => ia || !r.archived) := by
  constructor
  · simp [filter_repos, List.filter_filter, Bool.and_self]
  · intro h1 h2
    subst h1
    subst h2
    simp [filter_repos, repo_matches]

/-- Witness for C5 at a one-repository list with both filters absent. -/
theorem filter_repos_idem_spec_witness :
    filter_repos no_rgx (filter_repos no_rgx [sample_repo] none none false false)
        none none false false =
      filter_repos no_rgx [sample_repo] none none false false ∧
    filter_repos no_rgx [sample_repo] none none false false =
      [sample_repo].filter fun r => false || !r.archived :=
  ⟨(filter_repos_idem_spec no_rgx [sample_repo] none none false false).1,
   (filter_repos_idem_spec no_rgx [sample_repo] none none false false).2 rfl rfl⟩

/-- C6, counterexample: with the substring filter supplied as the empty
string and no regex filter, the claim's inclusion predicate accepts the
non-archived `sample_repo` (the empty substring is a case-insensitive match
of every blob), yet `filter_repos` returns the empty list. -/
theorem filter_repos_claim_cex :
    claim_included no_rgx (some "") none false sample_repo ∧
    filter_repos no_rgx [sample_repo] (some "") none false false = [] := by
  constructor
  · exact ⟨fun h => absurd h (by decide), Or.inr (Or.inl ⟨"", rfl, by decide⟩)⟩
  · decide

/-- C6, amended: a repository is kept exactly when it survives the archived
exclusion and either both filters are effectively absent (substring filter
`None`, regex filter `None` or the empty string), or a non-empty substring
filter matches case-insensitively against the name/full-name/description
blob, or a non-empty regex filter matches that blob; an empty substring
filter never matches and does not count as absent. -/
theorem filter_repos_amended_spec (g : String → String → Bool)
    (ms mr : Option String) (ia fk : Bool) (L : List Repo) (r : Repo) :
    r ∈ filter_repos g L ms mr ia fk ↔ r ∈ L ∧ amended_included g ms mr ia r := by
  unfold filter_repos amended_included
  simp only [List.mem_filter, Bool.and_eq_true, archived_gate_iff,
    repo_matches_iff, and_assoc]

/-- C7: a record without a `pdf_url` key reports the named failure and
returns unsuccessful with no network or file I/O; a record with a `pdf_url`
returns success exactly when the GET yields status 200 and the full body is
written to the target file, and returns failure on any non-200 status or
any raised exception. -/
theorem download_paper_spec (http : String → NetResult)
    (write_ok : String → List Nat → Bool) (dir : String) (paper : Paper) :
    (paper.pdf_url = none →
      download_paper http write_ok dir paper =
        { ok := false
          messages := ["PDF link not found: " ++ paper.title]
          events := [] }) ∧
    ((download_paper http write_ok dir paper).ok = true ↔
      ∃ url aid status content,
        paper.pdf_url = some (some url) ∧ paper.arxiv_id = some aid ∧
        http url = NetResult.resp status content ∧ status = 200 ∧
        write_ok (dir ++ "/" ++ (aid ++ "_" ++
          String.mk (sanitize_title paper.title.data) ++ ".pdf")) content = true) := by
  constructor
  · intro h
    unfold download_paper
    rw [h]
  · rcases hp : paper.pdf_url with _ | url_val
    · simp [download_paper, hp]
    · rcases ha : paper.arxiv_id with _ | aid
      · simp [download_paper, hp, ha]
      · rcases url_val with _ | url
        · simp [download_paper, hp, ha]
        · rcases hh : http url with ⟨status, content⟩ | m
          · by_cases hst : status = 200
            · subst hst
              by_cases hw : write_ok (dir ++ "/" ++ (aid ++ "_" ++
                  String.mk (sanitize_title paper.title.data) ++ ".pdf")) content
              · simp [download_paper, hp, ha, hh, hw]
                exact ⟨200, content, ⟨rfl, rfl⟩, rfl, hw⟩
              · simp [download_paper, hp, ha, hh, hw]
            · simp [download_paper, hp, ha, hh, hst]
          · simp [download_paper, hp, ha, hh]

/-- Witness for C7 at a record with no `pdf_url` key. -/
theorem download_paper_spec_witness :
    download_paper (fun _ => NetResult.resp 200 [1, 2]) (fun _ _ => true) "d"
        paper_no_pdf =
      { ok := false
        messages := ["PDF link not found: " ++ paper_no_pdf.title]
        events := [] } :=
  (download_paper_spec (fun _ => NetResult.resp 200 [1, 2]) (fun _ _ => true) "d"
    paper_no_pdf).1 rfl

/-- C8, counterexample: with the git executable unavailable and an interval
of 5 seconds, the tool exits with status 1 (`ensure_git_available` runs
before the interval check), not with status 2 as the claim demands for
every interval below 10. -/
theorem main_run_git_missing_cex :
    main_run false cfg_lo no_rgx (Except.ok []) (fun _ => false) (fun _ => 0)
      (fun _ => 0) = (1, []) :=
  rfl

/-- C8, amended: provided the git executable is available, a configured
interval below 10 seconds exits with status 2 before any network or
subprocess event, a failing repository listing exits with status 1, and a
successful listing ends with status 0; when git is unavailable the tool
instead exits with status 1 at startup, also before any network or
subprocess event. -/
theorem main_run_amended_spec (cfg : GhConfig) (g : String → String → Bool)
    (listing : Except String (List Repo)) (d : String → Bool)
    (c p : String → Int) :
    (cfg.interval < 10 → main_run true cfg g listing d c p = (2, [])) ∧
    (10 ≤ cfg.interval → ∀ e, listing = Except.error e →
      main_run true cfg g listing d c p = (1, [GhEvent.netListing])) ∧
    (10 ≤ cfg.interval → ∀ rs, listing = Except.ok rs →
      (main_run true cfg g listing d c p).1 = 0) ∧
    main_run false cfg g listing d c p = (1, []) := by
  refine ⟨?_, ?_, ?_, rfl⟩
  · intro h
    simp [main_run, h]
  · intro h e he
    subst he
    have hn : ¬ (cfg.interval < 10) := by omega
    simp [main_run, hn]
  · intro h rs hrs
    subst hrs
    have hn : ¬ (cfg.interval < 10) := by omega
    simp [main_run, hn]

/-- Witness for C8 at concrete configurations: interval 5 with git present,
a failing listing at interval 10, and a successful listing at interval 10. -/
theorem main_run_amended_spec_witness :
    (cfg_lo.interval < 10 ∧
      main_run true cfg_lo no_rgx (Except.ok []) (fun _ => false) (fun _ => 0)
        (fun _ => 0) = (2, [])) ∧
    (10 ≤ cfg_ok.interval ∧
      main_run true cfg_ok no_rgx (Except.error "boom") (fun _ => false)
        (fun _ => 0) (fun _ => 0) = (1, [GhEvent.netListing])) ∧
    (main_run true cfg_ok no_rgx (Except.ok [sample_repo]) (fun _ => false)
      (fun _ => 0) (fun _ => 0)).1 = 0 :=
  ⟨⟨by decide,
    (main_run_amended_spec cfg_lo no_rgx (Except.ok []) (fun _ => false)
      (fun _ => 0) (fun _ => 0)).1 (by decide)⟩,
   ⟨by decide,
    (main_run_amended_spec cfg_ok no_rgx (Except.error "boom") (fun _ => false)
      (fun _ => 0) (fun _ => 0)).2.1 (by decide) "boom" rfl⟩,
   (main_run_amended_spec cfg_ok no_rgx (Except.ok [sample_repo]) (fun _ => false)
     (fun _ => 0) (fun _ => 0)).2.2.1 (by decide) [sample_repo] rfl⟩

/-- C9: `filter_repos` returns the same result for both settings of the
fork-inclusion argument, for every repository list and every other filter
configuration — the option has no effect. -/
theorem filter_repos_forks_independent (g : String → String → Bool)
    (L : List Repo) (ms mr : Option String) (ia : Bool) :
    filter_repos g L ms mr ia true = filter_repos g L ms mr ia false :=
  rfl

/-- C10: the substring filter supplied as the empty string with no regex
filter drops every repository of a non-empty list of non-archived
repositories: the empty substring is falsy and never matches, and the
no-filter branch requires the substring to be absent. -/
theorem filter_repos_empty_substring_spec (g : String → String → Bool)
    (L : List Repo) (ia fk : Bool) (hne : L ≠ [])
    (hnarch : ∀ r ∈ L, r.archived = false) :
    filter_repos g L (some "") none ia fk = [] := by
  unfold filter_repos
  refine List.filter_eq_nil_iff.mpr fun r _ => ?_
  simp [repo_matches]

/-- Witness for C10 at a one-repository list. -/
theorem filter_repos_empty_substring_spec_witness :
    [sample_repo] ≠ ([] : List Repo) ∧
    (∀ r ∈ [sample_repo], r.archived = false) ∧
    filter_repos no_rgx [sample_repo] (some "") none false false = [] :=
  ⟨by decide, by decide,
   filter_repos_empty_substring_spec no_rgx [sample_repo] false false
     (by decide) (by decide)⟩
